import Mathlib

/-!
Verification of the agent-process streaming proxy of `levered-hq/levered-client`:
the `ClaudeManager` process supervisor (`claude-manager.ts`), the
`OutputParser` stream decoder (`output-parser.ts`) and the `SSEManager`
event broadcaster (`sse-manager.ts`), embedded shallowly.

Modelling conventions:
* JavaScript values decoded from JSON are modelled by `JValue`; JS truthiness
  (`if (x)`, `a || b`) is modelled by `truthy` / `jsOrD`.
* JSON number literals are modelled as integers; no claim involves non-integer
  numbers (IEEE-754 float semantics are outside the embedding).
* The `timestamp` field that every event carries (`Date.now()`, wall clock,
  nondeterministic) is omitted from the `ClaudeEvent` embedding; all claims
  are about the event sequences up to timestamps.
* `console` / `logger` calls are pure logging and are not modelled.
-/

/-- Left brace character, written via its code point. -/
def lbrace : Char := Char.ofNat 123

/-- Right brace character, written via its code point. -/
def rbrace : Char := Char.ofNat 125

/-- JSON values as produced by `JSON.parse`. Object fields keep source order;
later duplicate keys shadow earlier ones (JS object semantics), see
`JValue.getField`. -/
inductive JValue where
  | jnull : JValue
  | jbool : Bool → JValue
  | jnum : Int → JValue
  | jstr : String → JValue
  | jarr : List JValue → JValue
  | jobj : List (String × JValue) → JValue

/-- JS truthiness of a defined value: `null`, `false`, `0` and `""` are falsy;
every other value (including `[]` and an empty object) is truthy. -/
def truthy : JValue → Bool
  | .jnull => false
  | .jbool b => b
  | .jnum n => n != 0
  | .jstr s => s != ""
  | .jarr _ => true
  | .jobj _ => true

/-- Truthiness of a possibly-undefined value: an absent property is falsy. -/
def otruthy : Option JValue → Bool
  | none => false
  | some v => truthy v

/-- Property access `v.k`: defined only on objects; on any other value the
result is `undefined` (`none`). A duplicate key keeps the last binding, as in
JS objects built by `JSON.parse`. -/
def JValue.getField : JValue → String → Option JValue
  | .jobj fs, k => fs.foldl (fun acc f => if f.1 = k then some f.2 else acc) none
  | _, _ => none

/-- The JS expression `a || b || ... || d`: the first truthy operand, else the
final default. Used for field fallbacks like `data.content || data.text || ""`. -/
def jsOrD : List (Option JValue) → JValue → JValue
  | [], d => d
  | a :: rest, d =>
    match a with
    | some v => if truthy v then v else jsOrD rest d
    | none => jsOrD rest d

/-- Reads a field only when it holds a string: models strict comparison of a
property against a string literal (`data.type === "thinking"`). -/
def strField (v : JValue) (k : String) : Option String :=
  match v.getField k with
  | some (.jstr s) => some s
  | _ => none

/-- The test `v.type === t` for a string literal `t`. -/
def typeIs (v : JValue) (t : String) : Bool :=
  strField v "type" == some t

/-- The elements a `for (const x of v)` loop visits when `v` is expected to be
an array: the elements for an array, nothing otherwise (a non-array either
yields no object-shaped elements or throws a `TypeError` that the callers'
`try` blocks swallow; in both cases no event is produced). -/
def JValue.asArray : JValue → List JValue
  | .jarr xs => xs
  | _ => []

/-- Whether a decoded value is the JSON `null`. Property access on `null`
(`block.type`) throws a `TypeError` in JS; on any other decoded value it
merely yields `undefined`. -/
def JValue.isNull : JValue → Bool
  | .jnull => true
  | _ => false

/-- A value that has a property cannot be `null`. -/
theorem JValue.isNull_false_of_getField {b : JValue} {k : String} {v : JValue}
    (h : b.getField k = some v) : b.isNull = false := by
  cases b <;> simp_all [JValue.getField, JValue.isNull]

/-- String coercion of a value pushed into a command-line argument list. Only
the string case occurs in practice (continuation tokens are strings). -/
def jsToString : JValue → String
  | .jnull => "null"
  | .jbool b => if b then "true" else "false"
  | .jnum n => toString n
  | .jstr s => s
  | .jarr _ => ""
  | .jobj _ => "[object Object]"

/-- JSON whitespace accepted between tokens by `JSON.parse`. -/
def jsonWs (c : Char) : Bool :=
  c = ' ' || c = '\t' || c = '\n' || c = '\r'

/-- Drop leading JSON whitespace. -/
def skipWs (cs : List Char) : List Char :=
  cs.dropWhile jsonWs

/-- Decode one string-escape character (after a backslash). -/
def escChar (c : Char) : Option Char :=
  if c = '"' then some '"'
  else if c = '\\' then some '\\'
  else if c = '/' then some '/'
  else if c = 'b' then some (Char.ofNat 8)
  else if c = 'f' then some (Char.ofNat 12)
  else if c = 'n' then some '\n'
  else if c = 'r' then some '\r'
  else if c = 't' then some '\t'
  else none

/-- Hexadecimal digit value. -/
def hexVal (c : Char) : Option Nat :=
  if '0' ≤ c ∧ c ≤ '9' then some (c.toNat - '0'.toNat)
  else if 'a' ≤ c ∧ c ≤ 'f' then some (c.toNat - 'a'.toNat + 10)
  else if 'A' ≤ c ∧ c ≤ 'F' then some (c.toNat - 'A'.toNat + 10)
  else none

/-- Parse the body of a JSON string literal (the opening quote already
consumed), returning the decoded characters and the rest of the input. -/
def parseStrChars : Nat → List Char → Option (List Char × List Char)
  | 0, _ => none
  | _, [] => none
  | fuel + 1, c :: rest =>
    if c = '"' then some ([], rest)
    else if c = '\\' then
      match rest with
      | [] => none
      | e :: rest2 =>
        if e = 'u' then
          match rest2 with
          | h1 :: h2 :: h3 :: h4 :: rest3 =>
            match hexVal h1, hexVal h2, hexVal h3, hexVal h4 with
            | some a, some b, some c3, some d =>
              (parseStrChars fuel rest3).map
                (fun r => (Char.ofNat (((a * 16 + b) * 16 + c3) * 16 + d) :: r.1, r.2))
            | _, _, _, _ => none
          | _ => none
        else
          match escChar e with
          | some d => (parseStrChars fuel rest2).map (fun r => (d :: r.1, r.2))
          | none => none
    else (parseStrChars fuel rest).map (fun r => (c :: r.1, r.2))

/-- Parse a run of decimal digits into a natural number. -/
def parseDigits : List Char → Option (Nat × List Char)
  | cs =>
    let digits := cs.takeWhile Char.isDigit
    if digits.isEmpty then none
    else some (digits.foldl (fun acc c => acc * 10 + (c.toNat - '0'.toNat)) 0,
               cs.dropWhile Char.isDigit)

mutual

/-- Parse one JSON value. The fuel bounds recursion depth; the top-level entry
point supplies enough for any input (nesting consumes input characters). -/
def parseVal : Nat → List Char → Option (JValue × List Char)
  | 0, _ => none
  | fuel + 1, cs =>
    match skipWs cs with
    | [] => none
    | c :: rest =>
      if c = 'n' then
        match rest with
        | 'u' :: 'l' :: 'l' :: rest2 => some (.jnull, rest2)
        | _ => none
      else if c = 't' then
        match rest with
        | 'r' :: 'u' :: 'e' :: rest2 => some (.jbool true, rest2)
        | _ => none
      else if c = 'f' then
        match rest with
        | 'a' :: 'l' :: 's' :: 'e' :: rest2 => some (.jbool false, rest2)
        | _ => none
      else if c = '"' then
        (parseStrChars (rest.length + 1) rest).map (fun r => (.jstr ⟨r.1⟩, r.2))
      else if c = '[' then
        match skipWs rest with
        | ']' :: rest2 => some (.jarr [], rest2)
        | _ => (parseElems fuel rest).map (fun r => (.jarr r.1, r.2))
      else if c = lbrace then
        match skipWs rest with
        | d :: rest2 =>
          if d = rbrace then some (.jobj [], rest2)
          else (parseFields fuel rest).map (fun r => (.jobj r.1, r.2))
        | [] => none
      else if c = '-' then
        (parseDigits rest).map (fun r => (.jnum (-(r.1 : Int)), r.2))
      else if c.isDigit then
        (parseDigits (c :: rest)).map (fun r => (.jnum (r.1 : Int), r.2))
      else none

/-- Parse one-or-more comma-separated array elements up to `]`. -/
def parseElems : Nat → List Char → Option (List JValue × List Char)
  | 0, _ => none
  | fuel + 1, cs =>
    match parseVal fuel cs with
    | none => none
    | some (v, rest) =>
      match skipWs rest with
      | ',' :: rest2 =>
        (parseElems fuel rest2).map (fun r => (v :: r.1, r.2))
      | ']' :: rest2 => some ([v], rest2)
      | _ => none

/-- Parse one-or-more comma-separated object fields up to a closing brace. -/
def parseFields : Nat → List Char → Option (List (String × JValue) × List Char)
  | 0, _ => none
  | fuel + 1, cs =>
    match skipWs cs with
    | '"' :: rest =>
      match parseStrChars (rest.length + 1) rest with
      | none => none
      | some (key, rest2) =>
        match skipWs rest2 with
        | ':' :: rest3 =>
          match parseVal fuel rest3 with
          | none => none
          | some (v, rest4) =>
            match skipWs rest4 with
            | ',' :: rest5 =>
              (parseFields fuel rest5).map (fun r => ((⟨key⟩, v) :: r.1, r.2))
            | d :: rest5 =>
              if d = rbrace then some ([(⟨key⟩, v)], rest5) else none
            | [] => none
        | _ => none
    | _ => none

end

/-- The call `JSON.parse(line)`: `some` of the decoded value on valid JSON,
`none` when `JSON.parse` throws. The whole input must be consumed, up to
trailing whitespace. A number with a fraction or exponent is rejected by this
model (integers only; no claim exercises floats). -/
def jsonParse (line : List Char) : Option JValue :=
  match parseVal (2 * line.length + 2) line with
  | some (v, rest) => if (skipWs rest).isEmpty then some v else none
  | none => none

/-- The JS `line.trim()` (leading and trailing whitespace removed). -/
def jsTrim (l : List Char) : List Char :=
  ((l.dropWhile Char.isWhitespace).reverse.dropWhile Char.isWhitespace).reverse

/-- The typed events of `types/events.ts` (`ClaudeEvent`), minus the wall-clock
`timestamp` field (see module docstring). Payload fields that the source passes
through from decoded JSON are kept as `JValue`. -/
inductive ClaudeEvent where
  | connected : String → ClaudeEvent
  | thinking : JValue → ClaudeEvent
  | tool_use : (name : JValue) → (input : JValue) → ClaudeEvent
  | tool_result : (content : JValue) → (success : Option JValue) → ClaudeEvent
  | message : JValue → ClaudeEvent
  | status : String → Option String → ClaudeEvent
  | error : (err : JValue) → (stack : Option JValue) → ClaudeEvent
  | completed : (summary : Option JValue) → ClaudeEvent
  | raw_output : (content : JValue) → (ansi : Bool) → ClaudeEvent

namespace OutputParser

/-! Embedding of `output-parser.ts` (`OutputParser`). Parser state is the pair
of carry-over buffers (`buffer` for text mode, `jsonBuffer` for JSON mode)
plus the mode flag fixed at construction. -/

/-- Parser state: `buffer`, `jsonBuffer`, `isJsonMode` of the class. -/
structure State where
  buffer : String
  jsonBuffer : String
  isJsonMode : Bool

/-- A fresh parser (`new OutputParser(jsonMode)`). -/
def mkParser (jsonMode : Bool) : State :=
  { buffer := "", jsonBuffer := "", isJsonMode := jsonMode }

/-- `OutputParser.jsonToEvent`: map one decoded record to at most one event,
keyed strictly on its `type` field; unmatched shapes give `none`. -/
def jsonToEvent (data : JValue) : Option ClaudeEvent :=
  if typeIs data "thinking" then
    some (.thinking (jsOrD [data.getField "content", data.getField "text"] (.jstr "")))
  else if typeIs data "tool_use" then
    some (.tool_use (jsOrD [data.getField "name"] (.jstr ""))
      (jsOrD [data.getField "input"] (.jobj [])))
  else if typeIs data "tool_result" then
    some (.tool_result (jsOrD [data.getField "content"] (.jstr ""))
      (data.getField "success"))
  else if typeIs data "message" || typeIs data "text" then
    some (.message (jsOrD [data.getField "content", data.getField "text"] (.jstr "")))
  else if typeIs data "error" then
    some (.error (jsOrD [data.getField "error", data.getField "message"] (.jstr ""))
      (data.getField "stack"))
  else if typeIs data "complete" || typeIs data "completed" then
    some (.completed (data.getField "summary"))
  else none

/-- The events one complete line contributes inside
`OutputParser.parseJsonStream`: blank lines are skipped, lines that fail
`JSON.parse` are dropped (logged only), a decoded record contributes the
event `jsonToEvent` gives it, if any. -/
def lineEvents (line : List Char) : List ClaudeEvent :=
  if (jsTrim line).isEmpty then []
  else
    match jsonParse line with
    | none => []
    | some data =>
      match jsonToEvent data with
      | some e => [e]
      | none => []

/-- The character-level core of `OutputParser.parseJsonStream`, applied to the
concatenation of the carry-over buffer and the chunk: split on newlines, keep
the final (possibly incomplete) line as the new buffer (`lines.pop() || ""`),
and decode each complete line in order. -/
def parseJsonStreamCore (s : List Char) : List Char × List ClaudeEvent :=
  let lines := s.splitOn '\n'
  (lines.getLastD [], lines.dropLast.flatMap lineEvents)

/-- `OutputParser.parseJsonStream`: append the chunk to `jsonBuffer` and run
the split-decode core. Returns the new `jsonBuffer` and the emitted events. -/
def parseJsonStream (jsonBuffer chunk : String) : String × List ClaudeEvent :=
  let r := parseJsonStreamCore (jsonBuffer ++ chunk).data
  (⟨r.1⟩, r.2)

/-- Feeding a sequence of chunks through `parseJsonStream` in arrival order,
threading the carry-over buffer and concatenating the emitted events. -/
def feedMany (jsonBuffer : String) : List String → String × List ClaudeEvent
  | [] => (jsonBuffer, [])
  | c :: cs =>
    let r := parseJsonStream jsonBuffer c
    let rest := feedMany r.1 cs
    (rest.1, r.2 ++ rest.2)

/-- Drop the parameter bytes of an ANSI CSI sequence up to and including its
final byte (in `0x40`-`0x7E`). -/
def dropCSI : List Char → List Char
  | [] => []
  | c :: rest => if 0x40 ≤ c.toNat ∧ c.toNat ≤ 0x7E then rest else dropCSI rest

/-- Models the external `strip-ansi` npm dependency: removes `ESC [ ... <final>`
control sequences. The fuel is the input length; each step consumes at least
one character. -/
def stripAnsiFuel : Nat → List Char → List Char
  | 0, _ => []
  | _, [] => []
  | fuel + 1, c :: rest =>
    if c = Char.ofNat 27 then
      match rest with
      | '[' :: rest2 => stripAnsiFuel fuel (dropCSI rest2)
      | _ => stripAnsiFuel fuel rest
    else c :: stripAnsiFuel fuel rest

/-- String-level wrapper for `strip-ansi`. -/
def stripAnsi (s : String) : String :=
  ⟨stripAnsiFuel s.data.length s.data⟩

/-- Split `s` at the first occurrence of `sep`: `s = before ++ sep ++ after`.
`none` when `sep` does not occur. -/
def splitFirst (sep s : String) : Option (String × String) :=
  match s.splitOn sep with
  | [] => none
  | [_] => none
  | b :: rest => some (b, String.intercalate sep rest)

/-- The regex over the text buffer looking for a thinking block; on a match the
source advances the buffer past the match end, discarding what preceded it.
Returns the captured content and the remaining buffer. -/
def matchThinking (buffer : String) : Option (String × String) := do
  let r1 ← splitFirst "<thinking>" buffer
  let r2 ← splitFirst "</thinking>" r1.2
  return (r2.1, r2.2)

/-- Backtracking over successive `<name>` occurrences of the tool-use regex:
the captured name is matched by `(.*?)` in which `.` excludes newlines, so an
occurrence whose shortest closing `</name>` spans a newline is skipped and the
next `<name>` is tried. Fuel bounds the number of occurrences tried. -/
def findNameSeg : Nat → String → Option (String × String)
  | 0, _ => none
  | fuel + 1, s =>
    match splitFirst "<name>" s with
    | none => none
    | some (_, afterName) =>
      match splitFirst "</name>" afterName with
      | none => none
      | some (nm, rest) =>
        if nm.contains '\n' then findNameSeg fuel afterName
        else some (nm, rest)

/-- The tool-use regex: `<tool_use>` then (lazily) `<name>...</name>`,
`<parameters>...</parameters>` and a closing `</tool_use>`. Returns the name
and parameter captures and the buffer remaining after the match. -/
def matchToolUse (buffer : String) : Option ((String × String) × String) := do
  let r0 ← splitFirst "<tool_use>" buffer
  let rn ← findNameSeg (r0.2.length + 1) r0.2
  let rp ← splitFirst "<parameters>" rn.2
  let rq ← splitFirst "</parameters>" rp.2
  let re ← splitFirst "</tool_use>" rq.2
  return ((rn.1, rq.1), re.2)

/-- The tool-result regex over the text buffer. -/
def matchToolResult (buffer : String) : Option (String × String) := do
  let r1 ← splitFirst "<tool_result>" buffer
  let r2 ← splitFirst "</tool_result>" r1.2
  return (r2.1, r2.2)

/-- The anchored assistant-message regex `^Assistant: (.*?)(?=\n<|$)` with
dotall: content runs to the first `"\n<"` (left unconsumed, being a
lookahead) or to the end of the buffer. -/
def matchAssistant (buffer : String) : Option (String × String) :=
  if buffer.startsWith "Assistant: " then
    let t := buffer.drop 11
    match splitFirst "\n<" t with
    | some (content, after) => some (content, "\n<" ++ after)
    | none => some (t, "")
  else none

/-- `OutputParser.parseParams`: try JSON first, else wrap the raw text. -/
def parseParams (paramsXml : String) : JValue :=
  match jsonParse paramsXml.data with
  | some v => v
  | none => .jobj [("raw", .jstr paramsXml.trim)]

/-- `OutputParser.extractNextEvent`: try the four patterns in order; on a match
return the event and the advanced buffer. -/
def extractNextEvent (buffer : String) : Option (ClaudeEvent × String) :=
  match matchThinking buffer with
  | some (content, rest) => some (.thinking (.jstr content.trim), rest)
  | none =>
    match matchToolUse buffer with
    | some ((nm, params), rest) => some (.tool_use (.jstr nm) (parseParams params), rest)
    | none =>
      match matchToolResult buffer with
      | some (content, rest) => some (.tool_result (.jstr content.trim) none, rest)
      | none =>
        match matchAssistant buffer with
        | some (content, rest) => some (.message (.jstr content.trim), rest)
        | none => none

/-- The `while (true)` extraction loop of `parseTextOutput`. Every match
consumes at least one character of the buffer, so fuel `buffer.length + 1`
covers all iterations. -/
def extractLoop : Nat → String → String × List ClaudeEvent
  | 0, b => (b, [])
  | fuel + 1, b =>
    match extractNextEvent b with
    | none => (b, [])
    | some (e, b2) =>
      let r := extractLoop fuel b2
      (r.1, e :: r.2)

/-- `OutputParser.parseTextOutput`: strip ANSI codes, append to the text
buffer, extract events until no pattern matches. -/
def parseTextOutput (buffer chunk : String) : String × List ClaudeEvent :=
  let buf := buffer ++ stripAnsi chunk
  extractLoop (buf.length + 1) buf

/-- `OutputParser.parse`: dispatch on the mode, then always append a
`raw_output` event carrying the raw chunk verbatim (for terminal display). -/
def parse (st : State) (rawOutput : String) : State × List ClaudeEvent :=
  if st.isJsonMode then
    let r := parseJsonStream st.jsonBuffer rawOutput
    ({ st with jsonBuffer := r.1 }, r.2 ++ [.raw_output (.jstr rawOutput) true])
  else
    let r := parseTextOutput st.buffer rawOutput
    ({ st with buffer := r.1 }, r.2 ++ [.raw_output (.jstr rawOutput) true])

/-- `OutputParser.reset`: clear both carry-over buffers. -/
def reset (st : State) : State :=
  { st with buffer := "", jsonBuffer := "" }

end OutputParser

namespace ClaudeManager

/-! Embedding of `claude-manager.ts` (`ClaudeManager`). The mutable fields of
the class form `State`; spawning is modelled by returning the `SpawnRecord`
that `spawn(claudePath, args, {cwd})` plus the stdin write would produce.
`Date.now()` readings are passed in as `now`. -/

/-- `ClaudeManagerConfig` of `types/config.ts` (`args` is optional). -/
structure Config where
  claudePath : String
  workingDirectory : String
  args : Option (List String)

/-- The mutable instance fields of `ClaudeManager`. `hasProcess` models
`currentProcess !== null`. -/
structure State where
  sessionId : Option JValue
  isProcessing : Bool
  isStarted : Bool
  startTime : Int
  lastActivity : Int
  hasProcess : Bool

/-- Field values at construction. -/
def init : State :=
  { sessionId := none, isProcessing := false, isStarted := false,
    startTime := 0, lastActivity := 0, hasProcess := false }

/-- `start()`: record timestamps and mark started; no process is spawned (it
also emits a `status` notification on a separate `"status"` channel that the
server does not forward; not modelled). -/
def start (st : State) (now : Int) : State :=
  { st with startTime := now, lastActivity := now, isStarted := true }

/-- The message of the synchronous busy rejection in `sendMessage`. -/
def busyMessage : String := "Claude is currently processing another message"

/-- The fixed print-mode flags `sendMessage` always passes. -/
def baseArgs : List String :=
  ["--print", "--output-format", "stream-json", "--verbose",
   "--permission-mode", "bypassPermissions"]

/-- The argument list `sendMessage` builds: base flags, then
`...(this.config.args || [])`, then `--continue <sessionId>` when the stored
session id is truthy. -/
def buildArgs (cfg : Config) (sessionId : Option JValue) : List String :=
  baseArgs ++ cfg.args.getD [] ++
    (match sessionId with
     | some sid => if truthy sid then ["--continue", jsToString sid] else []
     | none => [])

/-- The observable effect of `spawn` plus the stdin write in `sendMessage`. -/
structure SpawnRecord where
  path : String
  args : List String
  cwd : String
  stdinData : String

/-- `sendMessage(message)`: throws the busy error synchronously (before any
mutation) when a job is in flight; otherwise records activity, sets busy and
spawns the CLI with the built arguments, writing `message` to its stdin.
Returns the thrown error or the spawn, paired with the state after the call. -/
def sendMessage (cfg : Config) (st : State) (message : String) (now : Int) :
    Except String SpawnRecord × State :=
  if st.isProcessing then (.error busyMessage, st)
  else
    (.ok { path := cfg.claudePath, args := buildArgs cfg st.sessionId,
           cwd := cfg.workingDirectory, stdinData := message },
     { st with lastActivity := now, isProcessing := true, hasProcess := true })

/-- Session-id capture in `parseJsonStream` (lines 1639-1649): when a decoded
record has a truthy `session_id` (or `sessionId`), that value becomes the
stored id. The source guards the assignment with
`newSessionId !== this.sessionId`; when the two are equal the skipped
assignment leaves the same stored value, so the resulting state is the
captured id in both branches and the guard is not modelled separately. -/
def captureSession (sid : Option JValue) (data : JValue) : Option JValue :=
  if otruthy (data.getField "session_id") || otruthy (data.getField "sessionId") then
    some (jsOrD [data.getField "session_id", data.getField "sessionId"] .jnull)
  else sid

/-- `ClaudeManager.contentBlockToEvent`: map one content block of a
stream-json assistant message to at most one event. Its first statement
reads `block.type`, which on a JSON `null` block throws a `TypeError`
(modelled as `Except.error`); the exception escapes to the per-line
`try/catch` of `parseJsonStream`. On any non-null block no access throws and
the block maps to at most one event. -/
def contentBlockToEvent (block : JValue) : Except Unit (Option ClaudeEvent) :=
  if block.isNull then .error ()
  else .ok
    (if typeIs block "thinking" then
      some (.thinking (jsOrD [block.getField "thinking"] (.jstr "")))
    else if typeIs block "text" then
      some (.message (jsOrD [block.getField "text"] (.jstr "")))
    else if typeIs block "tool_use" then
      some (.tool_use (jsOrD [block.getField "name"] (.jstr ""))
        (jsOrD [block.getField "input"] (.jobj [])))
    else none)

/-- `ClaudeManager.jsonToEvent`: the fallback mapping for records that are not
stream-json assistant/user messages. Note the final branch: a record carrying
a truthy `content` or `text` field that matched nothing else is mapped to a
`raw_output` event. -/
def jsonToEvent (data : JValue) : Option ClaudeEvent :=
  if typeIs data "thinking" || otruthy (data.getField "thinking") then
    some (.thinking (jsOrD [data.getField "content", data.getField "thinking"] (.jstr "")))
  else if typeIs data "tool_use" || otruthy (data.getField "tool") then
    some (.tool_use
      (jsOrD [data.getField "name",
              (data.getField "tool").bind (JValue.getField · "name")] (.jstr ""))
      (jsOrD [data.getField "input",
              (data.getField "tool").bind (JValue.getField · "input")] (.jobj [])))
  else if typeIs data "tool_result" || otruthy (data.getField "result") then
    some (.tool_result (jsOrD [data.getField "content", data.getField "result"] (.jstr "")) none)
  else if typeIs data "message" || typeIs data "content" || otruthy (data.getField "text") then
    some (.message (jsOrD [data.getField "content", data.getField "text"] (.jstr "")))
  else if typeIs data "error" then
    some (.error (jsOrD [data.getField "error", data.getField "message"] (.jstr "")) none)
  else if otruthy (data.getField "content") || otruthy (data.getField "text") then
    some (.raw_output (jsOrD [data.getField "content", data.getField "text"] (.jstr "")) false)
  else none

/-- The `for (const contentBlock of ...)` loop of the assistant branch: emit
one event per block in order; a thrown `TypeError` (a `null` block) aborts
the loop — the events already emitted stay emitted, the remaining blocks of
the line are never processed. -/
def emitAssistantBlocks : List JValue → List ClaudeEvent
  | [] => []
  | b :: rest =>
    match contentBlockToEvent b with
    | .error _ => []
    | .ok none => emitAssistantBlocks rest
    | .ok (some e) => e :: emitAssistantBlocks rest

/-- The loop of the user branch: one `tool_result` event per `tool_result`
block; reading `contentBlock.type` on a `null` block throws, aborting the
loop the same way. -/
def emitUserBlocks : List JValue → List ClaudeEvent
  | [] => []
  | b :: rest =>
    if b.isNull then []
    else if typeIs b "tool_result" then
      .tool_result (jsOrD [b.getField "content"] (.jstr "")) none ::
        emitUserBlocks rest
    else emitUserBlocks rest

/-- The events one decoded record contributes inside
`ClaudeManager.parseJsonStream`: an `assistant` record with truthy
`message.content` yields one event per content block via
`contentBlockToEvent` until a `null` block's `TypeError` (swallowed by the
per-line catch) aborts the line; a `user` record with truthy
`message.content` likewise yields a `tool_result` event per `tool_result`
block; everything else falls back to `jsonToEvent`. -/
def lineEvents (data : JValue) : List ClaudeEvent :=
  let mc := (data.getField "message").bind (fun m => m.getField "content")
  if typeIs data "assistant" && otruthy mc then
    emitAssistantBlocks ((mc.getD .jnull).asArray)
  else if typeIs data "user" && otruthy mc then
    emitUserBlocks ((mc.getD .jnull).asArray)
  else
    match jsonToEvent data with
    | some e => [e]
    | none => []

/-- `ClaudeManager.parseJsonStream`: split the chunk (alone — there is no
carry-over buffer in this class) on newlines; for each line, skip it when
blank, drop it when `JSON.parse` throws (logged only), otherwise capture any
session id and emit the record's events. Returns the final stored session id
and the emitted events in order. -/
def parseJsonStream (sid : Option JValue) (chunk : String) :
    Option JValue × List ClaudeEvent :=
  (chunk.data.splitOn '\n').foldl
    (fun acc line =>
      if (jsTrim line).isEmpty then acc
      else
        match jsonParse line with
        | none => acc
        | some data => (captureSession acc.1 data, acc.2 ++ lineEvents data))
    (sid, [])

/-- Feeding a sequence of stdout chunks to `parseJsonStream` in arrival order,
threading the stored session id and concatenating the emitted events. -/
def feedMany (sid : Option JValue) : List String → Option JValue × List ClaudeEvent
  | [] => (sid, [])
  | c :: cs =>
    let r := parseJsonStream sid c
    let rest := feedMany r.1 cs
    (rest.1, r.2 ++ rest.2)

/-- Rendering of the exit code into the error message: a number prints as
itself, a `null` code (process killed by a signal) prints as `"null"`. -/
def codeToString : Option Int → String
  | some n => toString n
  | none => "null"

/-- The `exit` handler (lines 1576-1599): clear busy, then emit exactly one
`completed` event when the code is strictly `0`, else exactly one `error`
event carrying the exit code. -/
def onExit (st : State) (code : Option Int) : State × List ClaudeEvent :=
  let st2 := { st with isProcessing := false }
  if code = some 0 then (st2, [.completed none])
  else (st2, [.error (.jstr ("Claude exited with code " ++ codeToString code)) none])

/-- The process `error` handler (lines 1602-1614): clear busy and emit one
`error` event with the failure message and stack. -/
def onError (st : State) (msg : String) (stack : Option String) :
    State × List ClaudeEvent :=
  ({ st with isProcessing := false }, [.error (.jstr msg) (stack.map JValue.jstr)])

/-- `stop()`: no-op without a process; with one, the process is terminated
(gracefully or force-killed after the 5s grace period) and busy is cleared on
either path. -/
def stop (st : State) : State :=
  if st.hasProcess then { st with isProcessing := false } else st

/-- `restart()`: `stop()` then clear the stored session id. -/
def restart (st : State) : State :=
  { stop st with sessionId := none }

/-- `isAlive()`. -/
def isAlive (st : State) : Bool := st.isStarted

/-- `isBusy()`. -/
def isBusy (st : State) : Bool := st.isProcessing

/-- `getSessionId()`. -/
def getSessionId (st : State) : Option JValue := st.sessionId

end ClaudeManager

namespace SSEManager

/-! Embedding of `sse-manager.ts` (`SSEManager`). The client map is a list of
`(clientId, alive)` pairs in insertion order, where `alive` says whether
writing to the response stream still succeeds; a dead sink makes
`sendEvent` throw. -/

/-- Pushing one event frame to a sink: succeeds iff the connection is alive;
on a dead connection the underlying write throws. -/
def pushEvent (alive : Bool) : Except Unit Unit :=
  if alive then .ok () else .error ()

/-- `removeClient(clientId)`: when the id is present, end the response (its
own failure is swallowed) and delete the entry; unknown ids are a no-op. -/
def removeClient (clients : List (String × Bool)) (cid : String) :
    List (String × Bool) :=
  if clients.any (fun p => p.1 == cid) then clients.filter (fun p => p.1 != cid)
  else clients

/-- `broadcast(event)`: visit every registered client in order; a successful
push delivers the event, a failing push is caught and removes that client.
The function is total — a dead sink never propagates an exception to the
caller. Returns the client map after the call and the `(clientId, event)`
deliveries that succeeded, in order. -/
def broadcast (clients : List (String × Bool)) (e : ClaudeEvent) :
    List (String × Bool) × List (String × ClaudeEvent) :=
  clients.foldl
    (fun acc c =>
      match pushEvent c.2 with
      | .ok () => (acc.1, acc.2 ++ [(c.1, e)])
      | .error () => (removeClient acc.1 c.1, acc.2))
    (clients, [])

/-- `sendToClient(clientId, event)`: push to one sink if present; a failing
push removes that client; absent ids are a no-op. -/
def sendToClient (clients : List (String × Bool)) (cid : String) (e : ClaudeEvent) :
    List (String × Bool) × List (String × ClaudeEvent) :=
  match clients.find? (fun p => p.1 == cid) with
  | none => (clients, [])
  | some c =>
    match pushEvent c.2 with
    | .ok () => (clients, [(cid, e)])
    | .error () => (removeClient clients cid, [])

/-- `closeAll()`: end every connection and clear the map. -/
def closeAll (_clients : List (String × Bool)) : List (String × Bool) := []

end SSEManager

/-!
List lemmas about `splitOnP`, used to prove chunk-boundary invariance of the
buffered decoder.
-/

/-- Glue the trailing partial line of a first input onto the head of the split
of a second input. -/
def joinHead {α : Type} (t : List α) : List (List α) → List (List α)
  | [] => [t]
  | h :: rest => (t ++ h) :: rest

theorem joinHead_ne_nil {α : Type} (t : List α) (ls : List (List α)) :
    joinHead t ls ≠ [] := by
  cases ls <;> simp [joinHead]

theorem getLastD_irrel {α : Type} (b : α) (t : List α) (d e : α) :
    (b :: t).getLastD d = (b :: t).getLastD e := by
  rw [List.getLastD_cons, List.getLastD_cons]

theorem getLastD_append_right {α : Type} (l1 l2 : List α) (h : l2 ≠ []) :
    ∀ d, (l1 ++ l2).getLastD d = l2.getLastD d := by
  induction l1 with
  | nil => intro d; rfl
  | cons a l1 ih =>
    intro d
    cases l2 with
    | nil => exact absurd rfl h
    | cons b t =>
      rw [List.cons_append, List.getLastD_cons, ih a]
      exact getLastD_irrel b t a d

/-- Splitting an appended input: the complete parts of the first input are
unchanged, and its trailing partial part is glued onto the split of the
second input. -/
theorem splitOnP_append_joinHead {α : Type} (p : α → Bool) (x y : List α) :
    (x ++ y).splitOnP p =
      (x.splitOnP p).dropLast ++ joinHead ((x.splitOnP p).getLastD []) (y.splitOnP p) := by
  induction x with
  | nil =>
    cases hy : y.splitOnP p with
    | nil => exact absurd hy (List.splitOnP_ne_nil p y)
    | cons h rest => simp [joinHead, hy]
  | cons a x ih =>
    cases hx : x.splitOnP p with
    | nil => exact absurd hx (List.splitOnP_ne_nil p x)
    | cons x0 xs =>
      rw [hx] at ih
      by_cases hp : p a
      · rw [List.cons_append, List.splitOnP_cons, if_pos hp, ih,
          List.splitOnP_cons, if_pos hp, hx]
        cases xs with
        | nil => simp [joinHead]
        | cons x1 xs2 => simp
      · rw [List.cons_append, List.splitOnP_cons, if_neg hp, ih,
          List.splitOnP_cons, if_neg hp, hx]
        cases xs with
        | nil =>
          cases hy : y.splitOnP p with
          | nil => exact absurd hy (List.splitOnP_ne_nil p y)
          | cons h rest => simp [joinHead]
        | cons x1 xs2 => simp

/-- No character of the trailing partial line satisfies the split predicate. -/
theorem splitOnP_getLastD_false {α : Type} (p : α → Bool) (s : List α) :
    ∀ a ∈ (s.splitOnP p).getLastD [], p a = false := by
  induction s with
  | nil => simp
  | cons c s ih =>
    cases hs : s.splitOnP p with
    | nil => exact absurd hs (List.splitOnP_ne_nil p s)
    | cons h rest =>
      rw [hs] at ih
      by_cases hp : p c
      · rw [List.splitOnP_cons, if_pos hp, hs]
        cases rest with
        | nil => simpa using ih
        | cons r1 rs => simpa using ih
      · rw [List.splitOnP_cons, if_neg hp, hs]
        cases rest with
        | nil =>
          intro a ha
          simp only [List.modifyHead, List.getLastD] at ha ⊢
          rcases List.mem_cons.mp ha with rfl | ha2
          · simpa using hp
          · exact ih a (by simpa using ha2)
        | cons r1 rs =>
          intro a ha
          exact ih a (by simpa using ha)

namespace OutputParser

theorem lineEvents_nil : lineEvents [] = [] := rfl

/-- The carry-over buffer left by the core never contains a newline. -/
theorem parseJsonStreamCore_fst_no_nl (s : List Char) :
    ∀ a ∈ (parseJsonStreamCore s).1, (a == '\n') = false := by
  intro a ha
  simp only [parseJsonStreamCore, List.splitOn] at ha
  exact splitOnP_getLastD_false (fun c => c == '\n') s a ha

/-- A newline-free input splits into itself alone. -/
theorem splitOnP_no_nl (s : List Char) (h : ∀ a ∈ s, (a == '\n') = false) :
    s.splitOnP (fun c => c == '\n') = [s] :=
  List.splitOnP_eq_single _ _ (fun a ha => by simp [h a ha])

/-- Decoding an appended input equals decoding the first part and then the
second part with the carried-over trailing line glued in front. -/
theorem parseJsonStreamCore_append (x y : List Char) :
    parseJsonStreamCore (x ++ y) =
      ((parseJsonStreamCore ((parseJsonStreamCore x).1 ++ y)).1,
        (parseJsonStreamCore x).2 ++
          (parseJsonStreamCore ((parseJsonStreamCore x).1 ++ y)).2) := by
  have hsingle : (parseJsonStreamCore x).1.splitOnP (fun c => c == '\n') =
      [(parseJsonStreamCore x).1] :=
    splitOnP_no_nl _ (parseJsonStreamCore_fst_no_nl x)
  have key1 := splitOnP_append_joinHead (fun c => c == '\n') x y
  have key2 := splitOnP_append_joinHead (fun c => c == '\n') ((parseJsonStreamCore x).1) y
  rw [hsingle] at key2
  simp only [List.dropLast_single, List.getLastD_cons, List.getLastD_nil,
    List.nil_append] at key2
  simp only [parseJsonStreamCore, List.splitOn] at key2 ⊢
  rw [key1, key2]
  have hne : joinHead ((x.splitOnP (fun c => c == '\n')).getLastD [])
      (y.splitOnP (fun c => c == '\n')) ≠ [] := joinHead_ne_nil _ _
  refine Prod.ext ?_ ?_
  · exact getLastD_append_right _ _ hne []
  · rw [List.dropLast_append_of_ne_nil _ hne, List.flatMap_append]

/-- String-level version of `parseJsonStreamCore_append`: feeding `c1 ++ c2`
equals feeding `c1` then `c2`, with the buffer threaded through and the
events concatenated. -/
theorem parseJsonStream_append (buf c1 c2 : String) :
    parseJsonStream buf (c1 ++ c2) =
      ((parseJsonStream (parseJsonStream buf c1).1 c2).1,
        (parseJsonStream buf c1).2 ++
          (parseJsonStream (parseJsonStream buf c1).1 c2).2) := by
  simp only [parseJsonStream]
  have h1 : (buf ++ (c1 ++ c2)).data = (buf ++ c1).data ++ c2.data := by
    rw [← String.append_assoc, String.data_append]
  have h2 : ((⟨(parseJsonStreamCore (buf ++ c1).data).1⟩ : String) ++ c2).data =
      (parseJsonStreamCore (buf ++ c1).data).1 ++ c2.data := by
    rw [String.data_append]
  rw [h1, h2, parseJsonStreamCore_append (buf ++ c1).data c2.data]

theorem string_foldl_append (l : List String) :
    ∀ s : String, l.foldl (· ++ ·) s = s ++ l.foldl (· ++ ·) "" := by
  induction l with
  | nil => intro s; simp
  | cons c l ih =>
    intro s
    simp only [List.foldl_cons]
    rw [ih (s ++ c), ih ("" ++ c), String.empty_append, String.append_assoc]

theorem string_join_cons (c : String) (cs : List String) :
    String.join (c :: cs) = c ++ String.join cs := by
  simp only [String.join, List.foldl_cons]
  rw [string_foldl_append cs ("" ++ c), String.empty_append]

/-- Feeding the concatenation in one call equals feeding the chunks one at a
time, for any newline-free starting buffer. -/
theorem parseJsonStream_join (chunks : List String) :
    ∀ buf : String, (∀ a ∈ buf.data, (a == '\n') = false) →
      parseJsonStream buf (String.join chunks) = feedMany buf chunks := by
  induction chunks with
  | nil =>
    intro buf hbuf
    simp only [parseJsonStream, feedMany]
    rw [show String.join [] = "" from rfl, String.append_empty]
    simp [parseJsonStreamCore, List.splitOn, splitOnP_no_nl buf.data hbuf]
  | cons c cs ih =>
    intro buf hbuf
    rw [string_join_cons, parseJsonStream_append buf c (String.join cs)]
    have hT : ∀ a ∈ (parseJsonStream buf c).1.data, (a == '\n') = false := by
      intro a ha
      simp only [parseJsonStream] at ha
      exact parseJsonStreamCore_fst_no_nl (buf ++ c).data a ha
    rw [ih _ hT]
    simp [feedMany]

end OutputParser

namespace SSEManager

/-- Factor one `broadcast` fold into its client-map component and its
delivery component. -/
theorem broadcast_step_factor (l : List (String × Bool)) (e : ClaudeEvent) :
    ∀ (cs : List (String × Bool)) (ds : List (String × ClaudeEvent)),
      l.foldl (fun acc c =>
          match pushEvent c.2 with
          | .ok () => (acc.1, acc.2 ++ [(c.1, e)])
          | .error () => (removeClient acc.1 c.1, acc.2)) (cs, ds) =
        (l.foldl (fun cs2 c => if c.2 then cs2 else removeClient cs2 c.1) cs,
          ds ++ (l.filter (fun p => p.2)).map (fun p => (p.1, e))) := by
  induction l with
  | nil => intro cs ds; simp
  | cons c l ih =>
    intro cs ds
    simp only [List.foldl_cons]
    by_cases hc : c.2 = true
    · have hpush : pushEvent c.2 = Except.ok () := by simp [pushEvent, hc]
      simp only [hpush]
      rw [ih]
      simp [hc, List.append_assoc]
    · have hpush : pushEvent c.2 = Except.error () := by simp [pushEvent, hc]
      simp only [hpush]
      rw [ih]
      simp [hc]

/-- Walking the clients with the dead-entry removals of one broadcast: with
unique ids, starting from the live survivors of the already-visited prefix
plus the unvisited rest, the result is exactly the live entries. -/
theorem removal_fold (cur : List (String × Bool)) :
    ∀ pre : List (String × Bool),
      ((pre ++ cur).map Prod.fst).Nodup →
      cur.foldl (fun cs2 c => if c.2 then cs2 else removeClient cs2 c.1)
          (pre.filter (fun p => p.2) ++ cur) =
        (pre ++ cur).filter (fun p => p.2) := by
  induction cur with
  | nil => intro pre h; simp
  | cons c cur ih =>
    intro pre h
    have hnd2 : (((pre ++ [c]) ++ cur).map Prod.fst).Nodup := by
      simpa [List.append_assoc] using h
    have hpre : c.1 ∉ pre.map Prod.fst := by
      simp only [List.map_append, List.map_cons, List.nodup_append] at h
      intro hmem
      exact h.2.2 hmem (List.mem_cons_self _ _)
    have hcur : c.1 ∉ cur.map Prod.fst := by
      simp only [List.map_append, List.map_cons, List.nodup_append,
        List.nodup_cons] at h
      exact h.2.1.1
    simp only [List.foldl_cons]
    by_cases hc : c.2 = true
    · have acc_eq : pre.filter (fun p => p.2) ++ c :: cur =
          (pre ++ [c]).filter (fun p => p.2) ++ cur := by
        simp [List.filter_append, hc]
      rw [if_pos hc, acc_eq]
      have := ih (pre ++ [c]) hnd2
      simpa [List.append_assoc, List.filter_append, hc] using this
    · have hb : c.2 = false := by simpa using hc
      have hkeep : ∀ (l2 : List (String × Bool)), c.1 ∉ l2.map Prod.fst →
          l2.filter (fun p => p.1 != c.1) = l2 := by
        intro l2 hl2
        apply List.filter_eq_self.mpr
        intro p hp
        have : p.1 ≠ c.1 := by
          intro hq
          exact hl2 (hq ▸ List.mem_map_of_mem Prod.fst hp)
        simpa [bne_iff_ne]
      have hrem : removeClient (pre.filter (fun p => p.2) ++ c :: cur) c.1 =
          pre.filter (fun p => p.2) ++ cur := by
        have hany : (pre.filter (fun p => p.2) ++ c :: cur).any
            (fun p => p.1 == c.1) = true := by
          apply List.any_eq_true.mpr
          exact ⟨c, by simp, by simp⟩
        have hprefix : c.1 ∉ (pre.filter (fun p => p.2)).map Prod.fst := by
          intro hmem
          rcases List.mem_map.mp hmem with ⟨p, hp, hp1⟩
          exact hpre (hp1 ▸ List.mem_map_of_mem Prod.fst (List.mem_of_mem_filter hp))
        simp only [removeClient, hany, if_true]
        rw [List.filter_append, List.filter_cons]
        rw [hkeep _ hprefix, hkeep _ hcur]
        simp
      rw [if_neg (by simp [hb]), hrem]
      have := ih (pre ++ [c]) hnd2
      rw [List.filter_append] at this ⊢
      simpa [List.filter_append, hb] using this

end SSEManager

/-- Folding the session-id capture of `ClaudeManager.parseJsonStream` over a
sequence of decoded records, in decode order. -/
def captureMany (sid : Option JValue) (records : List JValue) : Option JValue :=
  records.foldl ClaudeManager.captureSession sid

/-- Records without any session-id field leave the stored token unchanged. -/
theorem captureMany_no_id (records : List JValue) :
    ∀ sid, (∀ q ∈ records, q.getField "session_id" = none ∧
      q.getField "sessionId" = none) →
    captureMany sid records = sid := by
  induction records with
  | nil => intro sid _; rfl
  | cons q rs ih =>
    intro sid h
    have hq := h q (by simp)
    have hcap : ClaudeManager.captureSession sid q = sid := by
      simp [ClaudeManager.captureSession, hq.1, hq.2, otruthy]
    simp only [captureMany, List.foldl_cons, hcap]
    exact ih sid (fun q2 hq2 => h q2 (by simp [hq2]))

/-- C1 (amended): chunk-boundary invariance holds for the buffered decoder
`OutputParser.parseJsonStream`: feeding any sequence of chunks in arrival
order — split at arbitrary byte offsets, including mid-record — yields
exactly the decoded event sequence and final carry-over buffer of feeding the
whole concatenation in a single call. A line split across two chunks is
reassembled in the buffer and decoded once, whole. -/
theorem chunk_boundary_invariance_buffered (chunks : List String) :
    OutputParser.feedMany "" chunks =
      OutputParser.parseJsonStream "" (String.join chunks) :=
  (OutputParser.parseJsonStream_join chunks "" (by simp)).symm

/-- C1 (witness): the invariance instantiated at a concrete mid-record
split. -/
theorem chunk_boundary_invariance_witness :
    OutputParser.feedMany "" ["\x7b\"type\":\"err", "or\"\x7d\n"] =
      OutputParser.parseJsonStream ""
        (String.join ["\x7b\"type\":\"err", "or\"\x7d\n"]) :=
  chunk_boundary_invariance_buffered ["\x7b\"type\":\"err", "or\"\x7d\n"]

/-- C1 (counterexample): `ClaudeManager.parseJsonStream` — the decoder the
manager actually feeds its stdout chunks to — has no carry-over buffer, so a
record split across two chunks is parse-attempted per fragment and dropped:
the two fragments yield no event while their concatenation yields one `error`
event, refuting chunk-boundary invariance for this decoder. -/
theorem chunk_boundary_cex_unbuffered :
    "\x7b\"type\":\"err" ++ "or\"\x7d\n" = "\x7b\"type\":\"error\"\x7d\n" ∧
    (ClaudeManager.feedMany none ["\x7b\"type\":\"err", "or\"\x7d\n"]).2 = [] ∧
    (ClaudeManager.feedMany none ["\x7b\"type\":\"error\"\x7d\n"]).2 =
      [.error (.jstr "") none] ∧
    (ClaudeManager.feedMany none ["\x7b\"type\":\"err", "or\"\x7d\n"]).2 ≠
      (ClaudeManager.feedMany none ["\x7b\"type\":\"error\"\x7d\n"]).2 := by
  refine ⟨by decide, rfl, rfl, fun h => absurd (congrArg List.length h) (by decide)⟩

/-- C3: `sendMessage` called while a job is in flight fails synchronously with
the busy error, spawns no process (the result carries no spawn record) and
leaves the whole state — busy flag, continuation token, both activity
timestamps — unchanged. -/
theorem busy_reject (cfg : ClaudeManager.Config) (st : ClaudeManager.State)
    (msg : String) (now : Int) (h : ClaudeManager.isBusy st = true) :
    (ClaudeManager.sendMessage cfg st msg now).1 =
      .error ClaudeManager.busyMessage ∧
    (ClaudeManager.sendMessage cfg st msg now).2 = st := by
  have hb : st.isProcessing = true := h
  constructor <;> simp [ClaudeManager.sendMessage, hb]

/-- C3 (witness): the busy rejection at a concrete busy state. -/
theorem busy_reject_witness :
    (ClaudeManager.sendMessage
        { claudePath := "claude", workingDirectory := "/w", args := none }
        { ClaudeManager.init with isProcessing := true } "hi" 5).1 =
      .error ClaudeManager.busyMessage ∧
    (ClaudeManager.sendMessage
        { claudePath := "claude", workingDirectory := "/w", args := none }
        { ClaudeManager.init with isProcessing := true } "hi" 5).2 =
      { ClaudeManager.init with isProcessing := true } :=
  busy_reject _ _ _ _ rfl

/-- C4: on exit code 0 the handler emits exactly one `completed` event and
clears busy; on any nonzero exit code it emits exactly one `error` event
carrying the exit code and clears busy. -/
theorem exit_code_events (st : ClaudeManager.State) (n : Int) (hn : n ≠ 0) :
    (ClaudeManager.onExit st (some 0)).2 = [.completed none] ∧
    ClaudeManager.isBusy (ClaudeManager.onExit st (some 0)).1 = false ∧
    (ClaudeManager.onExit st (some n)).2 =
      [.error (.jstr ("Claude exited with code " ++ toString n)) none] ∧
    ClaudeManager.isBusy (ClaudeManager.onExit st (some n)).1 = false := by
  refine ⟨?_, ?_, ?_, ?_⟩ <;>
    simp [ClaudeManager.onExit, ClaudeManager.isBusy, ClaudeManager.codeToString, hn]

/-- C4 (witness): exit codes 0 and 1 at a concrete state. -/
theorem exit_code_events_witness :
    (ClaudeManager.onExit ClaudeManager.init (some 0)).2 = [.completed none] ∧
    ClaudeManager.isBusy (ClaudeManager.onExit ClaudeManager.init (some 0)).1 = false ∧
    (ClaudeManager.onExit ClaudeManager.init (some 1)).2 =
      [.error (.jstr ("Claude exited with code " ++ toString (1 : Int))) none] ∧
    ClaudeManager.isBusy (ClaudeManager.onExit ClaudeManager.init (some 1)).1 = false :=
  exit_code_events ClaudeManager.init 1 (by decide)

/-- C9: a `null` exit code (process killed by a signal) emits one `error`
event whose message renders the code as `null`, clears busy, and a
`completed` event is emitted if and only if the exit code is exactly 0. -/
theorem null_exit_error (st : ClaudeManager.State) :
    (ClaudeManager.onExit st none).2 =
      [.error (.jstr "Claude exited with code null") none] ∧
    ClaudeManager.isBusy (ClaudeManager.onExit st none).1 = false ∧
    ∀ c : Option Int,
      ((∃ s, ClaudeEvent.completed s ∈ (ClaudeManager.onExit st c).2) ↔
        c = some 0) := by
  refine ⟨rfl, rfl, ?_⟩
  intro c
  by_cases hc : c = some 0
  · subst hc; simp [ClaudeManager.onExit]
  · simp [ClaudeManager.onExit, hc]

/-- C9 (witness): the signal-kill case at a concrete state. -/
theorem null_exit_error_witness :
    (ClaudeManager.onExit ClaudeManager.init none).2 =
      [.error (.jstr "Claude exited with code null") none] ∧
    ClaudeManager.isBusy (ClaudeManager.onExit ClaudeManager.init none).1 = false ∧
    ∀ c : Option Int,
      ((∃ s, ClaudeEvent.completed s ∈ (ClaudeManager.onExit ClaudeManager.init c).2) ↔
        c = some 0) :=
  null_exit_error ClaudeManager.init

/-- C10: every `OutputParser.parse` call — in either mode, on any chunk,
including empty, malformed or partial-line chunks — appends as the last
element a `raw_output` event carrying the raw chunk verbatim, an event type
outside the typed set the specification enumerates; hence the returned array
is never empty. -/
theorem parse_appends_raw_output (st : OutputParser.State) (raw : String) :
    (OutputParser.parse st raw).2.getLast? =
      some (.raw_output (.jstr raw) true) ∧
    (OutputParser.parse st raw).2 ≠ [] := by
  unfold OutputParser.parse
  by_cases h : st.isJsonMode
  · simp [h, List.getLast?_concat]
  · simp [h, List.getLast?_concat]

/-- C10 (witness): the `raw_output` tail at a concrete parser and chunk. -/
theorem parse_appends_raw_output_witness :
    (OutputParser.parse (OutputParser.mkParser true) "x").2.getLast? =
      some (.raw_output (.jstr "x") true) ∧
    (OutputParser.parse (OutputParser.mkParser true) "x").2 ≠ [] :=
  parse_appends_raw_output (OutputParser.mkParser true) "x"

/-- C2 (amended): a successfully parsed record whose `type` matches none of
the mapped kinds (and whose fallback-trigger fields are falsy) yields no
event from `OutputParser.jsonToEvent`; in `ClaudeManager` such a record
yields no event unless it carries a truthy `content` or `text` field, in
which case the final fallback of `ClaudeManager.jsonToEvent` maps it to a
`raw_output` event instead of dropping it. -/
theorem unrecognized_shapes (data : JValue)
    (hty : ∀ t ∈ ["thinking", "tool_use", "tool_result", "message", "text",
      "content", "error", "complete", "completed", "assistant", "user"],
      typeIs data t = false)
    (hth : otruthy (data.getField "thinking") = false)
    (htool : otruthy (data.getField "tool") = false)
    (hres : otruthy (data.getField "result") = false)
    (htext : otruthy (data.getField "text") = false) :
    OutputParser.jsonToEvent data = none ∧
    ClaudeManager.lineEvents data =
      (if otruthy (data.getField "content") then
        [.raw_output (jsOrD [data.getField "content", data.getField "text"]
          (.jstr "")) false]
      else []) := by
  have t1 := hty "thinking" (by simp)
  have t2 := hty "tool_use" (by simp)
  have t3 := hty "tool_result" (by simp)
  have t4 := hty "message" (by simp)
  have t5 := hty "text" (by simp)
  have t6 := hty "content" (by simp)
  have t7 := hty "error" (by simp)
  have t8 := hty "complete" (by simp)
  have t9 := hty "completed" (by simp)
  have t10 := hty "assistant" (by simp)
  have t11 := hty "user" (by simp)
  constructor
  · simp [OutputParser.jsonToEvent, t1, t2, t3, t4, t5, t7, t8, t9]
  · simp only [ClaudeManager.lineEvents, t10, t11, Bool.false_and, if_false]
    simp only [ClaudeManager.jsonToEvent, t1, t2, t3, t4, t5, t6, t7,
      hth, htool, hres, htext, Bool.or_self, Bool.or_false, Bool.false_or,
      if_false]
    by_cases hc : otruthy (data.getField "content") = true
    · simp [hc]
    · simp [hc]

/-- C2 (counterexample): a record with no `type` field and no mapped shape —
`'\x7b"content":"hi"\x7d'` — is not dropped by the ClaudeManager decoder: it
is mapped to a `raw_output` event. -/
theorem unrecognized_shape_cex :
    ClaudeManager.parseJsonStream none "\x7b\"content\":\"hi\"\x7d\n" =
      (none, [.raw_output (.jstr "hi") false]) := rfl

/-- C2 (witness): the amended statement at the same concrete record. -/
theorem unrecognized_shapes_witness :
    OutputParser.jsonToEvent (.jobj [("content", .jstr "hi")]) = none ∧
    ClaudeManager.lineEvents (.jobj [("content", .jstr "hi")]) =
      (if otruthy ((JValue.jobj [("content", .jstr "hi")]).getField "content") then
        [.raw_output (jsOrD [(JValue.jobj [("content", .jstr "hi")]).getField "content",
          (JValue.jobj [("content", .jstr "hi")]).getField "text"] (.jstr "")) false]
      else []) :=
  unrecognized_shapes (.jobj [("content", .jstr "hi")])
    (by intro t ht; rfl) rfl rfl rfl rfl

/-- C5 (amended): an assistant record with an array of content blocks is
unpacked into one event per block, in block order: thinking blocks yield
`thinking`, text blocks yield `message`, tool_use blocks yield `tool_use`
with name and input passed through verbatim, and non-null unrecognized block
kinds yield no event and processing continues — but a JSON `null` block
throws a `TypeError` (reading `block.type`) that the per-line catch
swallows, aborting the remainder of that line's blocks; the events already
emitted stay emitted. -/
theorem assistant_blocks_events (data : JValue) (blocks : List JValue)
    (h1 : data.getField "type" = some (.jstr "assistant"))
    (h2 : (data.getField "message").bind (fun m => m.getField "content") =
      some (.jarr blocks)) :
    ClaudeManager.lineEvents data = ClaudeManager.emitAssistantBlocks blocks ∧
    (∀ b s, b.getField "type" = some (.jstr "thinking") →
      b.getField "thinking" = some (.jstr s) →
      ClaudeManager.contentBlockToEvent b = .ok (some (.thinking (.jstr s)))) ∧
    (∀ b s, b.getField "type" = some (.jstr "text") →
      b.getField "text" = some (.jstr s) →
      ClaudeManager.contentBlockToEvent b = .ok (some (.message (.jstr s)))) ∧
    (∀ b nm inp, b.getField "type" = some (.jstr "tool_use") →
      b.getField "name" = some nm → truthy nm = true →
      b.getField "input" = some inp → truthy inp = true →
      ClaudeManager.contentBlockToEvent b = .ok (some (.tool_use nm inp))) ∧
    (∀ b, b.isNull = false → typeIs b "thinking" = false →
      typeIs b "text" = false → typeIs b "tool_use" = false →
      ClaudeManager.contentBlockToEvent b = .ok none) ∧
    (∀ b rest o, ClaudeManager.contentBlockToEvent b = .ok o →
      ClaudeManager.emitAssistantBlocks (b :: rest) =
        o.toList ++ ClaudeManager.emitAssistantBlocks rest) ∧
    (∀ rest, ClaudeManager.emitAssistantBlocks (JValue.jnull :: rest) = []) := by
  refine ⟨?_, ?_, ?_, ?_, ?_, ?_, ?_⟩
  · simp [ClaudeManager.lineEvents, typeIs, strField, h1, h2, otruthy, truthy,
      JValue.asArray]
  · intro b s hb hthb
    have hnn := JValue.isNull_false_of_getField hb
    by_cases hs : s = ""
    · subst hs
      simp [ClaudeManager.contentBlockToEvent, hnn, typeIs, strField, hb, hthb,
        jsOrD, truthy]
    · simp [ClaudeManager.contentBlockToEvent, hnn, typeIs, strField, hb, hthb,
        jsOrD, truthy, hs]
  · intro b s hb htxt
    have hnn := JValue.isNull_false_of_getField hb
    by_cases hs : s = ""
    · subst hs
      simp [ClaudeManager.contentBlockToEvent, hnn, typeIs, strField, hb, htxt,
        jsOrD, truthy]
    · simp [ClaudeManager.contentBlockToEvent, hnn, typeIs, strField, hb, htxt,
        jsOrD, truthy, hs]
  · intro b nm inp hb hnm htnm hinp htinp
    have hnn := JValue.isNull_false_of_getField hb
    simp [ClaudeManager.contentBlockToEvent, hnn, typeIs, strField, hb, hnm,
      hinp, jsOrD, htnm, htinp]
  · intro b hnn hb1 hb2 hb3
    simp [ClaudeManager.contentBlockToEvent, hnn, hb1, hb2, hb3]
  · intro b rest o hok
    cases o with
    | none => simp [ClaudeManager.emitAssistantBlocks, hok]
    | some e => simp [ClaudeManager.emitAssistantBlocks, hok]
  · intro rest
    rfl

/-- C5 (counterexample): on the assistant record whose content array is
`[null, text "y"]` the program reads `block.type` on the `null` block and
throws a `TypeError` that the per-line catch swallows, so the line emits no
events — whereas the claim ("one Event per content block in block order;
unrecognized kinds yield no Event") predicts `[message "y"]`, the output the
same record produces without the null block. -/
theorem assistant_blocks_cex :
    ClaudeManager.lineEvents (.jobj [("type", .jstr "assistant"),
      ("message", .jobj [("content", .jarr [.jnull,
        .jobj [("type", .jstr "text"), ("text", .jstr "y")]])])]) = [] ∧
    ClaudeManager.lineEvents (.jobj [("type", .jstr "assistant"),
      ("message", .jobj [("content", .jarr [
        .jobj [("type", .jstr "text"), ("text", .jstr "y")]])])]) =
      [.message (.jstr "y")] ∧
    ClaudeManager.lineEvents (.jobj [("type", .jstr "assistant"),
      ("message", .jobj [("content", .jarr [.jnull,
        .jobj [("type", .jstr "text"), ("text", .jstr "y")]])])]) ≠
      [.message (.jstr "y")] :=
  ⟨rfl, rfl, fun h => absurd (congrArg List.length h) (by decide)⟩

/-- C5 (witness): the spec scenario — a thinking block `"x"` followed by a
text block `"y"` yields exactly `thinking "x"` then `message "y"`. -/
theorem assistant_blocks_events_witness :
    ClaudeManager.lineEvents (.jobj [("type", .jstr "assistant"),
      ("message", .jobj [("content", .jarr [
        .jobj [("type", .jstr "thinking"), ("thinking", .jstr "x")],
        .jobj [("type", .jstr "text"), ("text", .jstr "y")]])])]) =
      [.thinking (.jstr "x"), .message (.jstr "y")] := by
  have h := assistant_blocks_events
    (.jobj [("type", .jstr "assistant"),
      ("message", .jobj [("content", .jarr [
        .jobj [("type", .jstr "thinking"), ("thinking", .jstr "x")],
        .jobj [("type", .jstr "text"), ("text", .jstr "y")]])])])
    [.jobj [("type", .jstr "thinking"), ("thinking", .jstr "x")],
     .jobj [("type", .jstr "text"), ("text", .jstr "y")]] rfl rfl
  rw [h.1]
  rfl

/-- C6: after a decoded record carries `session_id: "abc"`, further records
without a session id leave the stored token at `"abc"`, and the next
`sendMessage` that spawns builds its arguments with the continuation flag
`--continue abc`. -/
theorem continuation_token_capture (cfg : ClaudeManager.Config)
    (st : ClaudeManager.State) (msg : String) (now : Int)
    (sid0 : Option JValue) (rs1 rs2 : List JValue) (r : JValue)
    (hr : r.getField "session_id" = some (.jstr "abc"))
    (h2 : ∀ q ∈ rs2, q.getField "session_id" = none ∧
      q.getField "sessionId" = none)
    (hst : st.sessionId = captureMany sid0 (rs1 ++ r :: rs2))
    (hbusy : st.isProcessing = false) :
    st.sessionId = some (.jstr "abc") ∧
    (ClaudeManager.sendMessage cfg st msg now).1 =
      .ok { path := cfg.claudePath,
            args := ClaudeManager.baseArgs ++ cfg.args.getD [] ++
              ["--continue", "abc"],
            cwd := cfg.workingDirectory, stdinData := msg } := by
  have hcapr : ∀ s, ClaudeManager.captureSession s r = some (.jstr "abc") := by
    intro s
    simp [ClaudeManager.captureSession, hr, otruthy, truthy, jsOrD]
  have hsid : st.sessionId = some (.jstr "abc") := by
    rw [hst]
    unfold captureMany
    rw [List.foldl_append, List.foldl_cons, hcapr]
    exact captureMany_no_id rs2 _ h2
  refine ⟨hsid, ?_⟩
  simp [ClaudeManager.sendMessage, hbusy, ClaudeManager.buildArgs, hsid,
    truthy, jsToString]

/-- C6 (witness): the capture at concrete records and a concrete state. -/
theorem continuation_token_capture_witness :
    ({ ClaudeManager.init with sessionId := some (.jstr "abc") } :
      ClaudeManager.State).sessionId = some (.jstr "abc") ∧
    (ClaudeManager.sendMessage
        { claudePath := "claude", workingDirectory := "/w", args := none }
        { ClaudeManager.init with sessionId := some (.jstr "abc") } "hi" 5).1 =
      .ok { path := "claude",
            args := ClaudeManager.baseArgs ++
              (none : Option (List String)).getD [] ++ ["--continue", "abc"],
            cwd := "/w", stdinData := "hi" } :=
  continuation_token_capture
    { claudePath := "claude", workingDirectory := "/w", args := none }
    { ClaudeManager.init with sessionId := some (.jstr "abc") } "hi" 5
    none [] [.jobj []] (.jobj [("session_id", .jstr "abc")]) rfl
    (by intro q hq; rw [List.mem_singleton] at hq; subst hq; exact ⟨rfl, rfl⟩)
    rfl rfl

/-- C7: `restart()` — the class's reset — clears the stored continuation
token, and a subsequent `sendMessage` that spawns builds arguments containing
no `--continue` flag (the fixed config args being continuation-free). -/
theorem reset_clears_continuation (cfg : ClaudeManager.Config)
    (st : ClaudeManager.State) (msg : String) (now : Int)
    (hcfg : "--continue" ∉ cfg.args.getD []) :
    (ClaudeManager.restart st).sessionId = none ∧
    ∀ sp, (ClaudeManager.sendMessage cfg (ClaudeManager.restart st) msg now).1 =
        .ok sp → "--continue" ∉ sp.args := by
  refine ⟨rfl, ?_⟩
  intro sp h
  unfold ClaudeManager.sendMessage at h
  by_cases hb : (ClaudeManager.restart st).isProcessing
  · rw [if_pos hb] at h
    cases h
  · rw [if_neg hb] at h
    have hargs : sp.args = ClaudeManager.buildArgs cfg (ClaudeManager.restart st).sessionId := by
      injection h with h2
      rw [← h2]
    rw [hargs]
    have hnone : (ClaudeManager.restart st).sessionId = none := rfl
    rw [hnone]
    intro hmem
    simp only [ClaudeManager.buildArgs, List.append_nil, List.mem_append] at hmem
    rcases hmem with h1 | h2
    · revert h1
      decide
    · exact hcfg h2

/-- C7 (witness): reset then send at a concrete state and config. -/
theorem reset_clears_continuation_witness :
    (ClaudeManager.restart
      { ClaudeManager.init with sessionId := some (.jstr "abc") }).sessionId = none ∧
    ∀ sp, (ClaudeManager.sendMessage
        { claudePath := "claude", workingDirectory := "/w", args := none }
        (ClaudeManager.restart
          { ClaudeManager.init with sessionId := some (.jstr "abc") }) "hi" 5).1 =
        .ok sp → "--continue" ∉ sp.args :=
  reset_clears_continuation
    { claudePath := "claude", workingDirectory := "/w", args := none }
    { ClaudeManager.init with sessionId := some (.jstr "abc") } "hi" 5
    (by decide)

/-- C8: `broadcast` visits every registered subscriber in order, delivers the
event to exactly those whose push succeeds, removes exactly those whose push
fails, and returns normally (it is a total function — a dead sink never
raises to the caller). Ids are unique per registration (`Map` keys). -/
theorem broadcast_delivers_and_prunes (clients : List (String × Bool))
    (e : ClaudeEvent) (hnd : (clients.map Prod.fst).Nodup) :
    (SSEManager.broadcast clients e).1 = clients.filter (fun p => p.2) ∧
    (SSEManager.broadcast clients e).2 =
      (clients.filter (fun p => p.2)).map (fun p => (p.1, e)) := by
  unfold SSEManager.broadcast
  rw [SSEManager.broadcast_step_factor clients e clients []]
  constructor
  · have h := SSEManager.removal_fold clients [] (by simpa using hnd)
    simpa using h
  · simp

/-- C8 (witness): three registered subscribers with the middle one
disconnected — the two live ones receive the event, the dead one is removed. -/
theorem broadcast_delivers_witness :
    (SSEManager.broadcast [("a", true), ("b", false), ("c", true)]
      (.completed none)).1 =
      [("a", true), ("b", false), ("c", true)].filter (fun p => p.2) ∧
    (SSEManager.broadcast [("a", true), ("b", false), ("c", true)]
      (.completed none)).2 =
      ([("a", true), ("b", false), ("c", true)].filter (fun p => p.2)).map
        (fun p => (p.1, ClaudeEvent.completed none)) :=
  broadcast_delivers_and_prunes [("a", true), ("b", false), ("c", true)]
    (.completed none) (by decide)
